import Mathlib

/-!
Shallow embedding of the `yarws` WebSocket library core (src/ws.rs, src/http.rs)
and proofs about its frame parser, validator, reassembly, reader loop, frame
writer and handshake accept-key computation.

Bytes are modelled as `Nat` values (< 256 on the wire); byte strings as
`List Nat`.  Machine-integer overflow is made explicit with `% 2^w` where the
source performs `u64` arithmetic.  Fallible operations return `Except`/`Option`;
an out-of-bounds vector index (a Rust panic) is modelled as `Option.none`.
-/

namespace Yarws

/-- Message type delivered to the application (enum `Msg` in ws.rs).
`Text` carries the UTF-8-validated payload bytes (the bytes of the Rust
`String`). -/
inductive Msg where
  | binary (payload : List Nat)
  | text (payload : List Nat)
  | close (status : Nat)
  | ping (payload : List Nat)
  | pong (payload : List Nat)
deriving DecidableEq, Repr

-- data frame types
def CONTINUATION : Nat := 0
def TEXT : Nat := 1
def BINARY : Nat := 2
-- control frame types
def CLOSE : Nat := 8
def PING : Nat := 9
def PONG : Nat := 10

def STATUS_PROTOCOL_ERROR : Nat := 1002
def STATUS_NOT_VALID_UTF8 : Nat := 1007

/-- `Opcode` in ws.rs is a newtype over `u8`; we model it as `Nat` and keep
its predicates as plain functions. -/
def Opcode.data (o : Nat) : Bool := o == TEXT || o == BINARY

def Opcode.control (o : Nat) : Bool := o == CLOSE || o == PING || o == PONG

def Opcode.cont (o : Nat) : Bool := o == CONTINUATION

def Opcode.valid (o : Nat) : Bool := Opcode.data o || Opcode.control o || Opcode.cont o

def Opcode.text (o : Nat) : Bool := o == TEXT

/-- struct `Frame` in ws.rs. `text_payload` holds the bytes of the Rust
`String` produced by UTF-8 validation. -/
structure Frame where
  fin : Bool
  rsv1 : Bool
  rsv : Nat
  mask : Bool
  opcode : Nat
  payload_len : Nat
  header_len : Nat
  masking_key : List Nat
  payload : List Nat
  text_payload : List Nat
deriving DecidableEq, Repr

/-- `Msg::is_close`. -/
def Msg.is_close : Msg → Bool
  | Msg.close _ => true
  | _ => false

/-- `fn mask` in ws.rs: XOR each payload byte with `key[i % 4]`. -/
def maskBytes (payload : List Nat) (key : List Nat) : List Nat :=
  (payload.enum).map (fun p => Nat.xor p.2 (key.getD (p.1 % 4) 0))

/-- `Frame::new(byte1, byte2)`. -/
def Frame.new (byte1 byte2 : Nat) : Frame :=
  { fin := byte1 &&& 0x80 != 0
    rsv1 := byte1 &&& 0x40 != 0
    rsv := (byte1 &&& 0x70) >>> 4
    opcode := byte1 &&& 0x0f
    mask := byte2 &&& 0x80 != 0
    payload_len := byte2 &&& 0x7f
    header_len := 2
    masking_key := [0, 0, 0, 0]
    payload := []
    text_payload := [] }

/-- `Frame::var_header_len`: length of the header after the first two bytes
(`none` when there is none), together with the updated frame
(`header_len` is mutated in the source). -/
def Frame.var_header_len (f : Frame) : Option Nat × Frame :=
  if !f.mask && f.payload_len < 126 then (none, f)
  else
    let n0 : Nat := if f.mask then 4 else 0
    let n : Nat :=
      if f.payload_len ≥ 126 then
        if f.payload_len == 127 then n0 + 2 + 6 else n0 + 2
      else n0
    (some n, { f with header_len := n + 2 })

/-- Big-endian value of a byte list (`u16::from_be_bytes` / `u64::from_be_bytes`). -/
def beVal (bytes : List Nat) : Nat :=
  bytes.foldl (fun acc b => acc * 256 + b) 0

/-- `Frame::set_header(buf)`: decode the extended payload length and the
masking key from the variable part of the header. -/
def Frame.set_header (f : Frame) (buf : List Nat) : Frame :=
  let mask_start := if f.mask then buf.length - 4 else buf.length
  let f :=
    if mask_start == 8 then { f with payload_len := beVal (buf.take 8) }
    else f
  let f :=
    if mask_start == 2 then { f with payload_len := beVal (buf.take 2) }
    else f
  if f.mask then { f with masking_key := (buf.drop mask_start).take 4 }
  else f

/-- `Frame::set_payload`: unmask when the mask bit is set. -/
def Frame.set_payload (f : Frame) (payload : List Nat) : Frame :=
  if f.mask then { f with payload := maskBytes payload f.masking_key }
  else { f with payload := payload }

/-- `Frame::is_rsv_ok(deflate_supported)`. -/
def Frame.is_rsv_ok (f : Frame) (deflate_supported : Bool) : Bool :=
  if deflate_supported then f.rsv == 0 || f.rsv == 4
  else f.rsv == 0

/-- Error kinds of `Frame::validate` (all map to `Error::WrongHeader`). -/
inductive HeaderErr where
  | reservedOpcode
  | tooLongControlFrame
  | fragmentedControlFrame
  | notInContinuation
  | finFrameDuringContinuation
  | wrongRsv
deriving DecidableEq, Repr

/-- `Frame::validate(deflate_supported, in_continuation)`; the source's early
`return Err(...)` statements become nested if-then-else. -/
def Frame.validate (f : Frame) (deflate_supported in_continuation : Bool) :
    Except HeaderErr Unit :=
  if !(Opcode.valid f.opcode) then Except.error HeaderErr.reservedOpcode
  else if Opcode.control f.opcode then
    if f.payload_len > 125 then Except.error HeaderErr.tooLongControlFrame
    else if !f.fin then Except.error HeaderErr.fragmentedControlFrame
    else if !(f.is_rsv_ok deflate_supported) then Except.error HeaderErr.wrongRsv
    else Except.ok ()
  else
    if !in_continuation && Opcode.cont f.opcode then
      Except.error HeaderErr.notInContinuation
    else if in_continuation && !(Opcode.cont f.opcode) then
      Except.error HeaderErr.finFrameDuringContinuation
    else if !(f.is_rsv_ok deflate_supported) then Except.error HeaderErr.wrongRsv
    else Except.ok ()

/-- enum `Fragment` in ws.rs. -/
inductive Fragment where
  | start
  | middle
  | fragEnd
  | none
deriving DecidableEq, Repr

/-- `Frame::fragment`. -/
def Frame.fragment (f : Frame) : Fragment :=
  if !f.fin && Opcode.data f.opcode then Fragment.start
  else if !f.fin && Opcode.cont f.opcode then Fragment.middle
  else if f.fin && Opcode.cont f.opcode then Fragment.fragEnd
  else Fragment.none

/-- `Frame::is_fragment`. -/
def Frame.is_fragment (f : Frame) : Bool :=
  !(f.fin && !(Opcode.cont f.opcode))

/-- `Frame::append(other)`: `payload_len` is `u64` addition (wraps at 2^64);
the payload bytes are concatenated. -/
def Frame.append (f other : Frame) : Frame :=
  { f with
    payload_len := (f.payload_len + other.payload_len) % 2 ^ 64
    payload := f.payload ++ other.payload }

/-- `Frame::into_fragment(fragment)`: returns `(completed frame?, buffer?)`.
The source calls `fragment.unwrap()` in the Middle/End arms; a `None` buffer
there is a panic, modelled as `Option.none` of the whole result. -/
def Frame.into_fragment (f : Frame) (fragment : Option Frame) :
    Option (Option Frame × Option Frame) :=
  match f.fragment with
  | Fragment.start => some (none, some f)
  | Fragment.middle =>
    match fragment with
    | some buf => some (none, some (buf.append f))
    | none => none
  | Fragment.fragEnd =>
    match fragment with
    | some buf => some (some (buf.append f), none)
    | none => none
  | Fragment.none => some (some f, fragment)

/-- Iterate `Frame::into_fragment` over a sequence of incoming frames the way
the read loop does, collecting the completed frames in order; `none` is a
panic of `into_fragment`. -/
def intoFragmentSeq : List Frame → Option Frame → Option (List Frame × Option Frame)
  | [], fragment => some ([], fragment)
  | f :: rest, fragment =>
    match f.into_fragment fragment with
    | none => none
    | some (completed, fragment) =>
      match intoFragmentSeq rest fragment with
      | none => none
      | some (cs, fragment) => some (completed.toList ++ cs, fragment)

/-- `Frame::status`: derive the close status. `self.payload[0]` /
`self.payload[1]` panic when out of bounds, modelled as `none`. -/
def Frame.status (f : Frame) : Option Nat :=
  if f.payload_len ≠ 2 then some 0
  else
    match f.payload.get? 0, f.payload.get? 1 with
    | some b0, some b1 =>
      let status := b0 * 256 + b1
      if status = 1000 ∨ status = 1001 ∨ status = 1002 ∨ status = 1003 ∨
         status = 1007 ∨ status = 1008 ∨ status = 1009 ∨ status = 1010 ∨
         status = 1011 then
        some status
      else some 0
    | _, _ => none

/-- Modelled from the spec: UTF-8 validation (`str::from_utf8` from the Rust
standard library, listed by the spec as the UTF-8 enforcement primitive).
Standard RFC 3629 byte-sequence validity. -/
def utf8Cont (b : Nat) : Bool := 0x80 ≤ b && b ≤ 0xbf

def utf8Valid : List Nat → Bool
  | [] => true
  | b :: rest =>
    if b ≤ 0x7f then utf8Valid rest
    else if 0xc2 ≤ b && b ≤ 0xdf then
      match rest with
      | b1 :: rest1 => utf8Cont b1 && utf8Valid rest1
      | [] => false
    else if b == 0xe0 then
      match rest with
      | b1 :: b2 :: rest2 =>
        (0xa0 ≤ b1 && b1 ≤ 0xbf) && utf8Cont b2 && utf8Valid rest2
      | _ => false
    else if (0xe1 ≤ b && b ≤ 0xec) || b == 0xee || b == 0xef then
      match rest with
      | b1 :: b2 :: rest2 => utf8Cont b1 && utf8Cont b2 && utf8Valid rest2
      | _ => false
    else if b == 0xed then
      match rest with
      | b1 :: b2 :: rest2 =>
        (0x80 ≤ b1 && b1 ≤ 0x9f) && utf8Cont b2 && utf8Valid rest2
      | _ => false
    else if b == 0xf0 then
      match rest with
      | b1 :: b2 :: b3 :: rest3 =>
        (0x90 ≤ b1 && b1 ≤ 0xbf) && utf8Cont b2 && utf8Cont b3 && utf8Valid rest3
      | _ => false
    else if 0xf1 ≤ b && b ≤ 0xf3 then
      match rest with
      | b1 :: b2 :: b3 :: rest3 =>
        utf8Cont b1 && utf8Cont b2 && utf8Cont b3 && utf8Valid rest3
      | _ => false
    else if b == 0xf4 then
      match rest with
      | b1 :: b2 :: b3 :: rest3 =>
        (0x80 ≤ b1 && b1 ≤ 0x8f) && utf8Cont b2 && utf8Cont b3 && utf8Valid rest3
      | _ => false
    else false

/-! Modelled from the spec: raw DEFLATE decompression (the external `inflate`
crate's `inflate_bytes`, listed by the spec as the "DEFLATE inflate"
primitive).  Only the part of RFC 1951 the claims need is modelled:
fixed-Huffman blocks whose symbols are literals or end-of-block.  Stored
blocks, dynamic-Huffman blocks and length/distance pairs yield `none`. -/

/-- Bit stream of a byte list, least-significant bit of each byte first. -/
def toBits (bytes : List Nat) : List Bool :=
  bytes.flatMap fun b => (List.range 8).map fun i => ((b >>> i) &&& 1) == 1

/-- Read `n` bits as an integer, first bit least significant (RFC 1951 §3.1.1
for non-Huffman fields). -/
def takeBitsLSB : Nat → List Bool → Option (Nat × List Bool)
  | 0, bits => some (0, bits)
  | _ + 1, [] => none
  | n + 1, b :: bits =>
    (takeBitsLSB n bits).map fun p => ((if b then 1 else 0) + 2 * p.1, p.2)

/-- Read `n` bits of a Huffman code, most significant first (RFC 1951 §3.1.1
packs Huffman codes starting from the most significant code bit). -/
def takeCodeBits : Nat → Nat → List Bool → Option (Nat × List Bool)
  | acc, 0, bits => some (acc, bits)
  | _, _ + 1, [] => none
  | acc, n + 1, b :: bits => takeCodeBits (acc * 2 + (if b then 1 else 0)) n bits

/-- Decode one symbol of the fixed Huffman literal/length code
(RFC 1951 §3.2.6). -/
def readFixedSym (bits : List Bool) : Option (Nat × List Bool) := do
  let (c7, bits) ← takeCodeBits 0 7 bits
  if c7 ≤ 0x17 then
    return (256 + c7, bits)
  let (c8, bits) ← takeCodeBits c7 1 bits
  if 0x30 ≤ c8 && c8 ≤ 0xbf then
    return (c8 - 0x30, bits)
  if 0xc0 ≤ c8 && c8 ≤ 0xc7 then
    return (280 + (c8 - 0xc0), bits)
  let (c9, bits) ← takeCodeBits c8 1 bits
  if 0x190 ≤ c9 && c9 ≤ 0x1ff then
    return (144 + (c9 - 0x190), bits)
  none

/-- Decode the symbols of one fixed-Huffman block; literals only (a
length/distance pair is outside the model). -/
def inflateFixedBlock : Nat → List Bool → List Nat → Option (List Nat × List Bool)
  | 0, _, _ => none
  | fuel + 1, bits, out =>
    match readFixedSym bits with
    | none => none
    | some (sym, bits) =>
      if sym == 256 then some (out, bits)
      else if sym < 256 then inflateFixedBlock fuel bits (out ++ [sym])
      else none

/-- Block loop of the DEFLATE stream. -/
def inflateBlocks : Nat → List Bool → List Nat → Option (List Nat)
  | 0, _, _ => none
  | fuel + 1, bits, out => do
    let (bfinal, bits) ← takeBitsLSB 1 bits
    let (btype, bits) ← takeBitsLSB 2 bits
    if btype == 1 then
      let (out, bits) ← inflateFixedBlock (bits.length + 1) bits out
      if bfinal == 1 then some out
      else inflateBlocks fuel bits out
    else none

/-- `inflate_bytes` of the `inflate` crate (restricted model, see above). -/
def inflate_bytes (data : List Nat) : Option (List Nat) :=
  inflateBlocks (data.length * 8 + 1) (toBits data) []

/-- Error kinds of `Frame::validate_payload`. -/
inductive PayloadErr where
  | inflateFailed
  | textPayloadNotValidUTF8
deriving DecidableEq, Repr

/-- `Frame::inflate`: when `rsv1` is set and the payload is non-empty, replace
the payload with its DEFLATE inflation (note: `payload_len` is NOT updated). -/
def Frame.inflate (f : Frame) : Except PayloadErr Frame :=
  if f.rsv1 && f.payload_len > 0 then
    match inflate_bytes f.payload with
    | some p => Except.ok { f with payload := p }
    | none => Except.error PayloadErr.inflateFailed
  else Except.ok f

/-- `Frame::validate_payload`: inflate, then UTF-8-validate text payloads. -/
def Frame.validate_payload (f : Frame) : Except PayloadErr Frame :=
  match f.inflate with
  | Except.error e => Except.error e
  | Except.ok f =>
    if !(Opcode.text f.opcode) then Except.ok f
    else if utf8Valid f.payload then
      Except.ok { f with text_payload := f.payload }
    else Except.error PayloadErr.textPayloadNotValidUTF8

/-- `Frame::into_ws_msg`.  For a Close frame this calls `status`, whose
out-of-bounds panic is modelled as `none`. -/
def Frame.into_ws_msg (f : Frame) : Option Msg :=
  if f.opcode == TEXT then some (Msg.text f.text_payload)
  else if f.opcode == BINARY then some (Msg.binary f.payload)
  else if f.opcode == PING then some (Msg.ping f.payload)
  else if f.opcode == PONG then some (Msg.pong f.payload)
  else if f.opcode == CLOSE then f.status.map Msg.close
  else some (Msg.close 0)

/-! ### The reader task (`Reader` in ws.rs)

The byte stream owned by the reader is modelled as the list of bytes it will
produce before EOF.  `src/stream.rs` is not among the sources; its read half
is modelled from the spec (§6 collaborator contracts). -/

/-- Modelled from the spec: `stream::ReadHalf::read_exact` (src/stream.rs is
not among the sources).  Reads exactly `n` bytes; when EOF arrives before `n`
bytes were produced the result is an unexpected-EOF error (`none`). -/
def read_exact (n : Nat) (input : List Nat) : Option (List Nat × List Nat) :=
  if n ≤ input.length then some (input.take n, input.drop n) else none

/-- `Reader::read_header`: `Except.error` is a hard I/O error,
`Except.ok none` is clean EOF at a frame boundary. -/
def read_header (input : List Nat) : Except Unit (Option (Frame × List Nat)) :=
  match read_exact 2 input with
  | none => Except.ok none
  | some (hdr, rest) =>
    let frame := Frame.new (hdr.getD 0 0) (hdr.getD 1 0)
    match frame.var_header_len with
    | (none, frame) => Except.ok (some (frame, rest))
    | (some l, frame) =>
      match read_exact l rest with
      | none => Except.error ()
      | some (b, rest) => Except.ok (some (frame.set_header b, rest))

/-- `Reader::read_payload`: `none` is a hard I/O error. -/
def read_payload (f : Frame) (input : List Nat) : Option (Frame × List Nat) :=
  if f.payload_len > 0 then
    (read_exact f.payload_len input).map fun p => (f.set_payload p.1, p.2)
  else some (f, input)

/-- How the reader task terminated. -/
inductive LoopRes where
  | ok
  | ioErr
  | panicked
deriving DecidableEq, Repr

/-- `Reader::read`: the read loop.  Arguments: negotiated deflate flag, fuel
(the loop itself terminates because every iteration consumes at least two
input bytes; the fuel only bounds the modelled recursion, `none` meaning it
ran out), remaining input bytes, reassembly buffer (`fragment`), messages
sent so far on `tx`.  Returns the full list of messages sent to the
application and how the task ended.  An `Err` propagated by `?` skips the
final `Close` send; a panic aborts the task. -/
def readLoop (deflate_supported : Bool) :
    Nat → List Nat → Option Frame → List Msg → Option (List Msg × LoopRes)
  | 0, _, _, _ => none
  | fuel + 1, input, fragment, msgs =>
    match read_header input with
    | Except.error _ => some (msgs, LoopRes.ioErr)
    | Except.ok none => some (msgs ++ [Msg.close 0], LoopRes.ok)
    | Except.ok (some (frame, rest)) =>
      match read_payload frame rest with
      | none => some (msgs, LoopRes.ioErr)
      | some (frame, rest) =>
        match frame.validate deflate_supported fragment.isSome with
        | Except.error _ =>
          some (msgs ++ [Msg.close STATUS_PROTOCOL_ERROR], LoopRes.ok)
        | Except.ok _ =>
          match
            (if frame.is_fragment then frame.into_fragment fragment
             else some (some frame, fragment)) with
          | none => some (msgs, LoopRes.panicked)
          | some (none, fragment) => readLoop deflate_supported fuel rest fragment msgs
          | some (some frame, fragment) =>
            match frame.validate_payload with
            | Except.error e =>
              some (msgs ++ [Msg.close
                (match e with
                 | PayloadErr.textPayloadNotValidUTF8 => STATUS_NOT_VALID_UTF8
                 | _ => STATUS_PROTOCOL_ERROR)], LoopRes.ok)
            | Except.ok frame =>
              if frame.opcode == CLOSE then
                match frame.status with
                | none => some (msgs, LoopRes.panicked)
                | some s => some (msgs ++ [Msg.close s], LoopRes.ok)
              else
                match frame.into_ws_msg with
                | none => some (msgs, LoopRes.panicked)
                | some m => readLoop deflate_supported fuel rest fragment (msgs ++ [m])

/-- The reader task as spawned: empty reassembly buffer, nothing sent yet. -/
def readerRun (deflate_supported : Bool) (fuel : Nat) (input : List Nat) :
    Option (List Msg × LoopRes) :=
  readLoop deflate_supported fuel input none []

/-! ### The frame writer (`FrameWriter` in ws.rs) -/

/-- Big-endian bytes of `n` in `w` bytes (`to_be_bytes`). -/
def beBytes (w n : Nat) : List Nat :=
  (List.range w).map fun i => (n >>> ((w - 1 - i) * 8)) &&& 255

/-- `FrameWriter::build(opcode, payload)`.  The random masking key drawn from
`rand::thread_rng` is passed in as the `key` argument. -/
def build (mask : Bool) (key : List Nat) (opcode : Nat) (payload : List Nat) :
    List Nat :=
  let l := payload.length
  let buf := (128 + opcode) ::
    (if l < 126 then [l]
     else if l < 65536 then 126 :: beBytes 2 l
     else 127 :: beBytes 8 l)
  if mask then
    (buf.set 1 ((buf.getD 1 0) ||| 128)) ++ key ++ maskBytes payload key
  else buf ++ payload

/-- `FrameWriter::close(status)` (`status` is a `u16`). -/
def closeFrame (mask : Bool) (key : List Nat) (status : Nat) : List Nat :=
  if status == 0 then build mask key CLOSE []
  else build mask key CLOSE (beBytes 2 status)

/-- `Msg::into_raw(client)`: serialize an outbound message (the masking key,
random in the source, is an argument). -/
def Msg.into_raw (m : Msg) (client : Bool) (key : List Nat) : List Nat :=
  match m with
  | Msg.binary payload => build client key BINARY payload
  | Msg.text payload => build client key TEXT payload
  | Msg.close status => closeFrame client key status
  | Msg.ping payload => build client key PING payload
  | Msg.pong payload => build client key PONG payload

/-! ### Accept-key computation (`ws_accept` in http.rs)

The source uses the external `sha1` and `base64` crates; the spec lists
"base64, SHA-1" among the bit/byte primitives of the core, so both are
modelled here from their published definitions. -/

/-- ASCII byte codes of a string. -/
def asciiCodes (s : String) : List Nat := s.toList.map Char.toNat

/-- 32-bit left rotation. -/
def rotl32 (n x : Nat) : Nat := ((x <<< n) ||| (x >>> (32 - n))) % 2 ^ 32

/-- Modelled from the spec: SHA-1 padding (FIPS 180-1): append `0x80`, zeros
to 56 mod 64, then the 64-bit big-endian bit length. -/
def sha1Pad (msg : List Nat) : List Nat :=
  msg ++ [0x80] ++ List.replicate ((119 - msg.length % 64) % 64) 0 ++
    beBytes 8 (msg.length * 8)

/-- SHA-1 message schedule: extend 16 words to 80. -/
def sha1Schedule (w16 : List Nat) : List Nat :=
  (List.range 64).foldl
    (fun w _ =>
      w ++ [rotl32 1 (Nat.xor (Nat.xor (w.getD (w.length - 3) 0) (w.getD (w.length - 8) 0))
        (Nat.xor (w.getD (w.length - 14) 0) (w.getD (w.length - 16) 0)))])
    w16

/-- SHA-1 round function `f_t`. -/
def sha1F (t b c d : Nat) : Nat :=
  if t < 20 then (b &&& c) ||| ((Nat.xor b 0xffffffff) &&& d)
  else if t < 40 then Nat.xor (Nat.xor b c) d
  else if t < 60 then (b &&& c) ||| (b &&& d) ||| (c &&& d)
  else Nat.xor (Nat.xor b c) d

/-- SHA-1 round constant `K_t`. -/
def sha1K (t : Nat) : Nat :=
  if t < 20 then 0x5a827999
  else if t < 40 then 0x6ed9eba1
  else if t < 60 then 0x8f1bbcdc
  else 0xca62c1d6

/-- One SHA-1 round. -/
def sha1Round (st : Nat × Nat × Nat × Nat × Nat) (tw : Nat × Nat) :
    Nat × Nat × Nat × Nat × Nat :=
  let (a, b, c, d, e) := st
  let (t, w) := tw
  ((rotl32 5 a + sha1F t b c d + e + sha1K t + w) % 2 ^ 32,
   a, rotl32 30 b, c, d)

/-- Process one 64-byte block. -/
def sha1Block (h : List Nat) (block : List Nat) : List Nat :=
  let w16 := (List.range 16).map fun i => beVal ((block.drop (4 * i)).take 4)
  let w := sha1Schedule w16
  let init := (h.getD 0 0, h.getD 1 0, h.getD 2 0, h.getD 3 0, h.getD 4 0)
  let fin := w.enum.foldl sha1Round init
  [(h.getD 0 0 + fin.1) % 2 ^ 32, (h.getD 1 0 + fin.2.1) % 2 ^ 32,
   (h.getD 2 0 + fin.2.2.1) % 2 ^ 32, (h.getD 3 0 + fin.2.2.2.1) % 2 ^ 32,
   (h.getD 4 0 + fin.2.2.2.2) % 2 ^ 32]

/-- Fold over the given number of 64-byte blocks (the padded message has
`length / 64` of them). -/
def sha1Blocks (h : List Nat) : Nat → List Nat → List Nat
  | 0, _ => h
  | n + 1, bytes => sha1Blocks (sha1Block h (bytes.take 64)) n (bytes.drop 64)

/-- Modelled from the spec: the SHA-1 digest (20 bytes) of a byte string. -/
def sha1 (msg : List Nat) : List Nat :=
  let padded := sha1Pad msg
  ((sha1Blocks [0x67452301, 0xefcdab89, 0x98badcfe, 0x10325476, 0xc3d2e1f0]
      (padded.length / 64) padded).map (beBytes 4)).flatten

/-- The base64 alphabet, as ASCII codes. -/
def base64Chars : List Nat :=
  (List.range 26).map (· + 65) ++ (List.range 26).map (· + 97) ++
    (List.range 10).map (· + 48) ++ [43, 47]

/-- Modelled from the spec: standard base64 encoding (RFC 4648) of a byte
string, `=`-padded; ASCII codes out. -/
def base64Encode : List Nat → List Nat
  | b0 :: b1 :: b2 :: rest =>
    let n := b0 * 65536 + b1 * 256 + b2
    [base64Chars.getD ((n >>> 18) &&& 63) 0, base64Chars.getD ((n >>> 12) &&& 63) 0,
     base64Chars.getD ((n >>> 6) &&& 63) 0, base64Chars.getD (n &&& 63) 0] ++
      base64Encode rest
  | [b0, b1] =>
    let n := b0 * 65536 + b1 * 256
    [base64Chars.getD ((n >>> 18) &&& 63) 0, base64Chars.getD ((n >>> 12) &&& 63) 0,
     base64Chars.getD ((n >>> 6) &&& 63) 0, 61]
  | [b0] =>
    let n := b0 * 65536
    [base64Chars.getD ((n >>> 18) &&& 63) 0, base64Chars.getD ((n >>> 12) &&& 63) 0,
     61, 61]
  | [] => []

/-- The fixed GUID of RFC 6455 (`WS_MAGIC_KEY` in http.rs). -/
def WS_MAGIC_KEY : List Nat := asciiCodes "258EAFA5-E914-47DA-95CA-C5AB0DC85B11"

/-- `ws_accept` in http.rs: base64 of the SHA-1 of key ++ GUID. -/
def ws_accept (key : List Nat) : List Nat :=
  base64Encode (sha1 (key ++ WS_MAGIC_KEY))

/-- A concrete Close frame (payload 03 e8, status 1000) for the C6 witness. -/
def closeSample : Frame :=
  { fin := true, rsv1 := false, rsv := 0, mask := false, opcode := CLOSE,
    payload_len := 2, header_len := 2, masking_key := [0, 0, 0, 0],
    payload := [0x03, 0xe8], text_payload := [] }

/-- Concrete fragments for the C7 witness: Text "f" / "o" / "x". -/
def fragStartSample : Frame :=
  { fin := false, rsv1 := false, rsv := 0, mask := false, opcode := TEXT,
    payload_len := 1, header_len := 2, masking_key := [0, 0, 0, 0],
    payload := [102], text_payload := [] }

def fragMidSample : Frame :=
  { fin := false, rsv1 := false, rsv := 0, mask := false, opcode := CONTINUATION,
    payload_len := 1, header_len := 2, masking_key := [0, 0, 0, 0],
    payload := [111], text_payload := [] }

def fragEndSample : Frame :=
  { fin := true, rsv1 := false, rsv := 0, mask := false, opcode := CONTINUATION,
    payload_len := 1, header_len := 2, masking_key := [0, 0, 0, 0],
    payload := [120], text_payload := [] }

/-! ### Helper lemmas -/

instance {ε α : Type} [DecidableEq ε] [DecidableEq α] : DecidableEq (Except ε α) :=
  fun x y =>
    match x, y with
    | Except.ok a, Except.ok b =>
      if h : a = b then isTrue (by rw [h]) else isFalse (by simp [h])
    | Except.error a, Except.error b =>
      if h : a = b then isTrue (by rw [h]) else isFalse (by simp [h])
    | Except.ok _, Except.error _ => isFalse (by simp)
    | Except.error _, Except.ok _ => isFalse (by simp)

/-- The close status codes `Frame::status` recognizes. -/
def allowedCloseStatuses : List Nat :=
  [1000, 1001, 1002, 1003, 1007, 1008, 1009, 1010, 1011]

lemma validate_ok_iff (f : Frame) (d ic : Bool) :
    f.validate d ic = Except.ok () ↔
      Opcode.valid f.opcode = true ∧
      (if Opcode.control f.opcode then f.payload_len ≤ 125 ∧ f.fin = true
       else (ic = true → Opcode.cont f.opcode = true) ∧
         (ic = false → Opcode.cont f.opcode = false)) ∧
      f.is_rsv_ok d = true := by
  unfold Frame.validate
  rcases ic <;> split_ifs <;> simp_all

lemma lor_128 (o : Nat) (h : o < 128) : 128 ||| o = 128 + o := by
  have h128 : ∀ o, o < 128 → 128 ||| o = 128 + o := by decide
  exact h128 o h

end Yarws

namespace Yarws

/-- C1: the reader is claimed to enforce masking by role (server rejects
unmasked data frames, client rejects masked frames, terminating with a
protocol error instead of delivering).  Counterexample: the reader has no
role parameter at all and `Frame::validate` never inspects the mask flag; an
unmasked text frame (which a server-role reader must reject) is validated
and delivered, and so is a masked one (which a client-role reader must
reject) — in both cases the loop ends with a clean `Close 0`, not a
protocol error. -/
theorem c1_mask_not_enforced_counterexample :
    readerRun false 2 [0x81, 0x01, 0x41] =
      some ([Msg.text [0x41], Msg.close 0], LoopRes.ok) ∧
    readerRun false 2 [0x81, 0x81, 1, 2, 3, 4, 0x40] =
      some ([Msg.text [0x41], Msg.close 0], LoopRes.ok) ∧
    (Frame.new 0x81 0x01).mask = false ∧
    (Frame.new 0x81 0x01).validate true false = Except.ok () ∧
    (Frame.new 0x81 0x01).validate false false = Except.ok () := by
  decide

/-- C1 (amended): the reader performs no masking enforcement at all: frame
validation is entirely independent of the frame's mask flag (the flag is
only used to unmask the payload), so no frame is ever rejected for having
the wrong mask bit for the endpoint role. -/
theorem c1_validate_ignores_mask (f : Frame) (d ic b : Bool) :
    ({ f with mask := b } : Frame).validate d ic = f.validate d ic := rfl

/-- C3: the claim restricts a set rsv1 to start frames of data messages.
Counterexample: with `deflate_supported`, `Frame::is_rsv_ok` accepts
reserved-field value 4 on ANY frame; a Ping (control) frame with rsv1 set
passes validation and is delivered rather than rejected with a protocol
error. -/
theorem c3_rsv_on_control_counterexample :
    (Frame.new 0xc9 0x00).rsv = 4 ∧
    Opcode.control (Frame.new 0xc9 0x00).opcode = true ∧
    (Frame.new 0xc9 0x00).validate true false = Except.ok () ∧
    readerRun true 2 [0xc9, 0x00] = some ([Msg.ping [], Msg.close 0], LoopRes.ok) := by
  decide

/-- C3 (amended): for every incoming frame the reserved field must be 0,
except that it may be exactly 4 (rsv1 alone) when `deflate_supported` is
true — independent of the frame's opcode and of its position in a
fragmented message; any frame accepted by validation satisfies this, and
the reserved-bits check accepts exactly these values. -/
theorem c3_rsv_rule (f : Frame) (d ic : Bool) :
    (f.is_rsv_ok d = true ↔ (f.rsv = 0 ∨ (d = true ∧ f.rsv = 4))) ∧
    (f.validate d ic = Except.ok () → (f.rsv = 0 ∨ (d = true ∧ f.rsv = 4))) := by
  have hiff : f.is_rsv_ok d = true ↔ (f.rsv = 0 ∨ (d = true ∧ f.rsv = 4)) := by
    unfold Frame.is_rsv_ok
    rcases d <;> simp
  refine ⟨hiff, fun h => ?_⟩
  exact hiff.mp ((validate_ok_iff f d ic).mp h).2.2

/-- Witness for `c3_rsv_rule`: a deflated text frame (rsv 4) passes the
reserved-bits check. -/
theorem c3_rsv_rule_witness :
    (Frame.new 0xc1 0x00).rsv = 0 ∨
      (true = true ∧ (Frame.new 0xc1 0x00).rsv = 4) :=
  ((c3_rsv_rule (Frame.new 0xc1 0x00) true false).1).mp (by decide)

/-- C4: the claim says every frame validated during reassembly must have a
Continuation opcode.  Counterexample: control frames skip the
continuation-ordering checks; a Ping frame validated while `in_continuation`
passes although its opcode is not Continuation. -/
theorem c4_control_during_continuation_counterexample :
    (Frame.new 0x89 0x00).opcode = PING ∧
    Opcode.cont (Frame.new 0x89 0x00).opcode = false ∧
    (Frame.new 0x89 0x00).validate false true = Except.ok () := by
  decide

/-- C4 (amended): for every NON-CONTROL incoming frame, validation while
reassembling requires a Continuation opcode and validation while not
reassembling forbids one; a mismatch is rejected. -/
theorem c4_continuation_order (f : Frame) (d ic : Bool)
    (hctl : Opcode.control f.opcode = false) :
    (ic = true → Opcode.cont f.opcode = false → f.validate d ic ≠ Except.ok ()) ∧
    (ic = false → Opcode.cont f.opcode = true → f.validate d ic ≠ Except.ok ()) := by
  constructor
  · intro hic hcont hok
    have h2 := ((validate_ok_iff f d ic).mp hok).2.1
    rw [if_neg (by simp [hctl])] at h2
    exact absurd (h2.1 hic) (by simp [hcont])
  · intro hic hcont hok
    have h2 := ((validate_ok_iff f d ic).mp hok).2.1
    rw [if_neg (by simp [hctl])] at h2
    exact absurd (h2.2 hic) (by simp [hcont])

/-- Witness for `c4_continuation_order`: a Text frame during reassembly is
rejected. -/
theorem c4_continuation_order_witness :
    Opcode.control (Frame.new 0x81 0x00).opcode = false ∧
    (Frame.new 0x81 0x00).validate false true ≠ Except.ok () :=
  ⟨by decide,
   (c4_continuation_order (Frame.new 0x81 0x00) false true (by decide)).1 rfl
     (by decide)⟩

set_option maxRecDepth 100000 in
/-- C9: the accept key is base64(SHA1(key ++ GUID)), and on the RFC 6455
sample key it yields exactly the RFC sample accept value. -/
theorem c9_ws_accept :
    (∀ key, ws_accept key =
      base64Encode (sha1 (key ++ asciiCodes "258EAFA5-E914-47DA-95CA-C5AB0DC85B11"))) ∧
    ws_accept (asciiCodes "dGhlIHNhbXBsZSBub25jZQ==") =
      asciiCodes "s3pPLMBiTxaQ9kYGzzhZRbK+xOo=" := by
  constructor
  · intro key; rfl
  · decide

/-- C10: the claim (implicit) says `Frame::status` never indexes the payload
out of bounds, even for a Close frame whose payload was replaced by DEFLATE
inflation.  The code violates it: frame `c8 02 03 00` (fin, rsv1, opcode
Close, payload_len 2, payload the empty DEFLATE stream) passes validation,
its payload is inflated to the empty vector while `payload_len` stays 2, and
`status()` then reads `payload[0]` out of bounds — a panic. -/
theorem c10_close_inflate_panic :
    readerRun true 1 [0xc8, 0x02, 0x03, 0x00] = some ([], LoopRes.panicked) ∧
    inflate_bytes [0x03, 0x00] = some [] ∧
    Frame.status
      { fin := true, rsv1 := true, rsv := 4, mask := false, opcode := CLOSE,
        payload_len := 2, header_len := 2, masking_key := [0, 0, 0, 0],
        payload := [], text_payload := [] } = none := by
  decide

/-- C6: close status derivation.  For every frame satisfying the wire
invariant (the payload vector holds exactly `payload_len` bytes, as for
every frame read off the wire): when `payload_len` is exactly 2 the status
is the big-endian u16 of the two payload bytes if that value is recognized
and 0 otherwise; for any other `payload_len` the status is 0. -/
theorem c6_close_status (f : Frame) (hw : f.payload.length = f.payload_len) :
    f.status = some (if f.payload_len = 2 then
      (if beVal f.payload ∈ allowedCloseStatuses then beVal f.payload else 0)
      else 0) := by
  by_cases h2 : f.payload_len = 2
  · have hl : f.payload.length = 2 := by omega
    obtain ⟨b0, b1, hp⟩ := List.length_eq_two.mp hl
    have hbe : beVal f.payload = b0 * 256 + b1 := by simp [hp, beVal]
    unfold Frame.status
    simp only [h2, hp, hbe, allowedCloseStatuses]
    norm_num
    split_ifs <;> simp_all
  · unfold Frame.status
    simp [h2]

/-- Witness for `c6_close_status` at the Close frame with payload 03 e8. -/
theorem c6_close_status_witness : Frame.status closeSample = some 1000 := by
  have h := c6_close_status closeSample (by decide)
  simpa [closeSample, beVal, allowedCloseStatuses] using h

/-- C5: the claim says EOF after only 1 of the 2 initial header bytes is a
hard error, like any EOF away from a frame boundary.  Counterexample: the
reader cannot distinguish that case — the 2-byte exact read reports the same
unexpected-EOF error whether 0 or 1 byte was available, and the reader maps
it to a clean termination: one stray byte followed by EOF yields a clean
`Close 0`, not a hard error. -/
theorem c5_partial_header_clean_close_counterexample :
    readerRun false 1 [0x81] = some ([Msg.close 0], LoopRes.ok) := by
  decide

/-- C5 (amended): EOF before the two initial header bytes are complete
(whether zero or one byte remains — the unexpected-EOF error of the
2-byte read does not distinguish them) terminates the reader cleanly with
status 0; EOF inside the variable-length header or inside the payload is a
hard I/O error: the reader exits on the error path with no Close emitted. -/
theorem c5_eof_semantics (d : Bool) (input : List Nat) (fuel : Nat) :
    (input.length < 2 →
      readLoop d (fuel + 1) input none [] = some ([Msg.close 0], LoopRes.ok)) ∧
    (read_header input = Except.error () →
      readLoop d (fuel + 1) input none [] = some ([], LoopRes.ioErr)) ∧
    (∀ f rest, read_header input = Except.ok (some (f, rest)) →
      rest.length < f.payload_len →
      readLoop d (fuel + 1) input none [] = some ([], LoopRes.ioErr)) ∧
    (∀ a b rest l, input = a :: b :: rest →
      ((Frame.new a b).var_header_len).1 = some l →
      rest.length < l →
      read_header input = Except.error ()) := by
  refine ⟨fun hshort => ?_, fun herr => ?_, fun f rest hok hlen => ?_,
    fun a b rest l hin hvar hrem => ?_⟩
  · have hhd : read_header input = Except.ok none := by
      unfold read_header read_exact
      rw [if_neg (by omega)]
    simp [readLoop, hhd]
  · simp [readLoop, herr]
  · have hpl : read_payload f rest = none := by
      unfold read_payload read_exact
      rw [if_pos (by omega)]
      rw [if_neg (by omega)]
      rfl
    simp [readLoop, hok, hpl]
  · subst hin
    unfold read_header read_exact
    rw [if_pos (by simp)]
    simp only [List.take, List.drop, List.getD, List.get?_cons_zero,
      List.get?_cons_succ, Option.getD_some]
    obtain ⟨f2, hf2⟩ : ∃ f2, (Frame.new a b).var_header_len = (some l, f2) := by
      rcases h : (Frame.new a b).var_header_len with ⟨o, f2⟩
      simp [h] at hvar
      exact ⟨f2, by rw [hvar]⟩
    rw [hf2]
    have hnle : ¬ l ≤ rest.length := by omega
    simp [hnle]

/-- Witness for `c5_eof_semantics`: empty input gives a clean close, and a
header announcing a 6-byte variable part that EOF cuts off is a hard
error. -/
theorem c5_eof_semantics_witness :
    readLoop false 1 [] none [] = some ([Msg.close 0], LoopRes.ok) ∧
    read_header [0x81, 0xfe] = Except.error () :=
  ⟨(c5_eof_semantics false [] 0).1 (by decide),
   (c5_eof_semantics false [0x81, 0xfe] 0).2.2.2 0x81 0xfe [] 6 rfl (by decide)
     (by decide)⟩

lemma intoFragmentSeq_mid_end (endf : Frame) (hend : endf.fragment = Fragment.fragEnd)
    (mids : List Frame) :
    ∀ acc : Frame, (∀ m ∈ mids, m.fragment = Fragment.middle) →
    intoFragmentSeq (mids ++ [endf]) (some acc) =
      some ([{ acc with
        payload_len :=
          (acc.payload_len + ((mids.map Frame.payload_len).sum + endf.payload_len)) % 2 ^ 64,
        payload := acc.payload ++ ((mids.map Frame.payload).flatten ++ endf.payload) }],
        none) := by
  induction mids with
  | nil =>
    intro acc _
    simp [intoFragmentSeq, Frame.into_fragment, hend, Frame.append]
  | cons m ms ih =>
    intro acc h
    have hm : m.fragment = Fragment.middle := h m (by simp)
    have hrec := ih (acc.append m) (fun x hx => h x (by simp [hx]))
    simp only [List.cons_append, intoFragmentSeq, Frame.into_fragment, hm,
      List.append_eq]
    rw [hrec]
    simp only [Option.toList, List.nil_append, Frame.append]
    refine congrArg some (congrArg (fun z => (z, (none : Option Frame))) ?_)
    refine congrArg (fun z => [z]) ?_
    have hlen :
        ((acc.payload_len + m.payload_len) % 2 ^ 64 +
          ((ms.map Frame.payload_len).sum + endf.payload_len)) % 2 ^ 64 =
        (acc.payload_len +
          (((m :: ms).map Frame.payload_len).sum + endf.payload_len)) % 2 ^ 64 := by
      simp only [List.map_cons, List.sum_cons]
      omega
    have hpl :
        (acc.payload ++ m.payload) ++ (((ms.map Frame.payload).flatten) ++ endf.payload) =
        acc.payload ++ ((((m :: ms).map Frame.payload).flatten) ++ endf.payload) := by
      simp [List.append_assoc]
    rw [hlen, hpl]

/-- C7: a fragmented message completed by the reader (Start data frame, zero
or more Middle continuations, an End continuation) yields one completed
frame whose payload is the concatenation of the fragment payloads in
arrival order, whose payload_len is the sum of the fragment payload lengths
(u64 arithmetic; the hypothesis rules out wraparound), and whose opcode is
the Start frame's opcode. -/
theorem c7_fragment_reassembly (start endf : Frame) (mids : List Frame)
    (hstart : start.fragment = Fragment.start)
    (hmids : ∀ m ∈ mids, m.fragment = Fragment.middle)
    (hend : endf.fragment = Fragment.fragEnd)
    (hbound :
      start.payload_len + ((mids.map Frame.payload_len).sum + endf.payload_len) < 2 ^ 64) :
    ∃ c, intoFragmentSeq (start :: (mids ++ [endf])) none = some ([c], none) ∧
      c.payload = start.payload ++ ((mids.map Frame.payload).flatten ++ endf.payload) ∧
      c.payload_len =
        start.payload_len + ((mids.map Frame.payload_len).sum + endf.payload_len) ∧
      c.opcode = start.opcode := by
  have hrec := intoFragmentSeq_mid_end endf hend mids start hmids
  refine ⟨{ start with
      payload_len :=
        (start.payload_len + ((mids.map Frame.payload_len).sum + endf.payload_len)) % 2 ^ 64,
      payload := start.payload ++ ((mids.map Frame.payload).flatten ++ endf.payload) },
    ?_, rfl, ?_, rfl⟩
  · simp only [intoFragmentSeq, Frame.into_fragment, hstart, List.append_eq]
    rw [hrec]
    simp
  · simp only
    exact Nat.mod_eq_of_lt hbound

/-- Witness for `c7_fragment_reassembly` on a three-fragment text message. -/
theorem c7_fragment_reassembly_witness :
    ∃ c, intoFragmentSeq (fragStartSample :: ([fragMidSample] ++ [fragEndSample])) none =
        some ([c], none) ∧
      c.payload = fragStartSample.payload ++
        (([fragMidSample].map Frame.payload).flatten ++ fragEndSample.payload) ∧
      c.payload_len = fragStartSample.payload_len +
        (([fragMidSample].map Frame.payload_len).sum + fragEndSample.payload_len) ∧
      c.opcode = fragStartSample.opcode :=
  c7_fragment_reassembly fragStartSample fragEndSample [fragMidSample]
    (by decide) (by decide) (by decide) (by decide)

lemma and_255 (x : Nat) : x &&& 255 = x % 256 := by
  simpa using Nat.and_pow_two_sub_one_eq_mod x 8

lemma beVal_beBytes_two (n : Nat) (h : n < 65536) : beVal (beBytes 2 n) = n := by
  simp only [beBytes, beVal, List.range_succ, List.range_zero, List.nil_append,
    List.map_append, List.map_cons, List.map_nil, List.foldl, and_255,
    Nat.shiftRight_eq_div_pow]
  norm_num
  omega

lemma beVal_beBytes_eight (n : Nat) (h : n < 2 ^ 64) : beVal (beBytes 8 n) = n := by
  simp only [beBytes, beVal, List.range_succ, List.range_zero, List.nil_append,
    List.map_append, List.map_cons, List.map_nil, List.foldl, and_255,
    Nat.shiftRight_eq_div_pow]
  norm_num
  omega

/-- C8: serialization of outbound frames.  Byte 0 is `0x80 ||| opcode` (fin
always set).  The low 7 bits of byte 1 encode the payload length (the
length itself below 126, the marker 126 for a following big-endian u16,
the marker 127 for a following big-endian u64), and the bytes after byte 1
are exactly that big-endian extension followed by (masked builds: the
masking key and the masked payload; unmasked builds: the payload).  A Close
with status 0 is built with an empty payload; any other status is built
with exactly the 2-byte big-endian encoding of the status. -/
theorem c8_frame_serialization (mask : Bool) (key : List Nat) (opcode : Nat)
    (payload : List Nat) (hop : opcode < 128) :
    (build mask key opcode payload).getD 0 0 = 128 ||| opcode ∧
    ((build mask key opcode payload).getD 1 0) % 128 =
      (if payload.length < 126 then payload.length
       else if payload.length < 65536 then 126 else 127) ∧
    (build mask key opcode payload).drop 2 =
      (if payload.length < 126 then []
       else if payload.length < 65536 then beBytes 2 payload.length
       else beBytes 8 payload.length) ++
      (if mask then key ++ maskBytes payload key else payload) ∧
    (payload.length < 65536 → beVal (beBytes 2 payload.length) = payload.length) ∧
    (payload.length < 2 ^ 64 → beVal (beBytes 8 payload.length) = payload.length) ∧
    (∀ s, s < 65536 →
      closeFrame mask key 0 = build mask key CLOSE [] ∧
      (s ≠ 0 → closeFrame mask key s = build mask key CLOSE (beBytes 2 s) ∧
        (beBytes 2 s).length = 2 ∧ beVal (beBytes 2 s) = s)) := by
  have hor : ∀ lb : Nat, lb < 128 → (lb ||| 128) % 128 = lb := by
    intro lb hlb
    rw [Nat.lor_comm, lor_128 lb hlb]
    omega
  refine ⟨?_, ?_, ?_, fun h => beVal_beBytes_two _ h, fun h => beVal_beBytes_eight _ h,
    fun s hs => ⟨rfl, fun hs0 => ⟨?_, by simp [beBytes], beVal_beBytes_two s hs⟩⟩⟩
  · rw [lor_128 opcode hop]
    unfold build
    rcases mask <;> by_cases h1 : payload.length < 126 <;>
      by_cases h2 : payload.length < 65536 <;> simp [h1, h2, List.set]
  · unfold build
    have e1 : (126 ||| 128) % 128 = 126 := by decide
    have e2 : (127 ||| 128) % 128 = 127 := by decide
    rcases mask <;> by_cases h1 : payload.length < 126 <;>
      by_cases h2 : payload.length < 65536 <;>
      simp [h1, h2, List.set, e1, e2]
    all_goals
      first
      | omega
      | rw [hor _ (by omega : payload.length < 128)]
  · unfold build
    rcases mask <;> by_cases h1 : payload.length < 126 <;>
      by_cases h2 : payload.length < 65536 <;> simp [h1, h2, List.set]
  · unfold closeFrame
    simp [hs0]

/-- Witness for `c8_frame_serialization`: the unmasked text frame "a". -/
theorem c8_frame_serialization_witness :
    (build false [] 1 [0x61]).getD 0 0 = 128 ||| 1 :=
  (c8_frame_serialization false [] 1 [0x61] (by decide)).1

lemma fragment_start_data (f : Frame) (h : f.fragment = Fragment.start) :
    Opcode.data f.opcode = true := by
  unfold Frame.fragment at h
  split_ifs at h <;> simp_all

lemma fragment_none_not_cont (f : Frame) (h : f.fragment = Fragment.none) :
    Opcode.cont f.opcode = false := by
  unfold Frame.fragment at h
  rcases hfin : f.fin <;> rcases hcont : Opcode.cont f.opcode <;>
    rcases hdata : Opcode.data f.opcode <;> simp_all

lemma is_fragment_false_not_cont (f : Frame) (h : f.is_fragment = false) :
    Opcode.cont f.opcode = false := by
  unfold Frame.is_fragment at h
  simp at h
  exact h.2

lemma data_facts (o : Nat) (h : Opcode.data o = true) :
    Opcode.valid o = true ∧ Opcode.cont o = false ∧ (o == CLOSE) = false := by
  simp [Opcode.data, TEXT, BINARY] at h
  rcases h with h | h <;> subst h <;> exact ⟨by decide, by decide, by decide⟩

lemma append_opcode (f g : Frame) : (f.append g).opcode = f.opcode := rfl

lemma validate_payload_opcode (f g : Frame) (h : f.validate_payload = Except.ok g) :
    g.opcode = f.opcode := by
  unfold Frame.validate_payload Frame.inflate at h
  split_ifs at h with h1
  · rcases hi : inflate_bytes f.payload with _ | p <;> rw [hi] at h <;>
      simp only [] at h
    · exact absurd h (by simp)
    · split_ifs at h <;> simp_all <;> rw [← h]
  · simp only [] at h
    split_ifs at h <;> simp_all <;> rw [← h]

lemma into_ws_msg_not_close (f : Frame) (hv : Opcode.valid f.opcode = true)
    (hc : Opcode.cont f.opcode = false) (h8 : (f.opcode == CLOSE) = false) :
    ∃ m, f.into_ws_msg = some m ∧ m.is_close = false := by
  simp [Opcode.valid, Opcode.data, Opcode.control, Opcode.cont, TEXT, BINARY,
    CLOSE, PING, PONG, CONTINUATION] at hv hc h8
  rcases hv with ((h | h) | (h | h) | h) | h
  · exact ⟨Msg.text f.text_payload, by simp [Frame.into_ws_msg, h, TEXT], rfl⟩
  · exact ⟨Msg.binary f.payload, by simp [Frame.into_ws_msg, h, TEXT, BINARY], rfl⟩
  · exact absurd h h8
  · exact ⟨Msg.ping f.payload,
      by simp [Frame.into_ws_msg, h, TEXT, BINARY, PING], rfl⟩
  · exact ⟨Msg.pong f.payload,
      by simp [Frame.into_ws_msg, h, TEXT, BINARY, PING, PONG], rfl⟩
  · exact absurd h hc


lemma readLoop_close_structure (d : Bool) :
    ∀ (fuel : Nat) (input : List Nat) (frag : Option Frame) (acc msgs : List Msg)
      (r : LoopRes),
    readLoop d fuel input frag acc = some (msgs, r) →
    (∀ m ∈ acc, m.is_close = false) →
    (∀ b, frag = some b → Opcode.data b.opcode = true) →
    ((r = LoopRes.ok →
        ∃ pre s, msgs = pre ++ [Msg.close s] ∧ ∀ m ∈ pre, m.is_close = false) ∧
     (r ≠ LoopRes.ok → ∀ m ∈ msgs, m.is_close = false)) := by
  intro fuel
  induction fuel with
  | zero =>
    intro input frag acc msgs r h _ _
    simp [readLoop] at h
  | succ n ih =>
    intro input frag acc msgs r h hacc hfrag
    simp only [readLoop] at h
    rcases hhd : read_header input with e | fo
    · rw [hhd] at h
      simp only [Option.some.injEq, Prod.mk.injEq] at h
      obtain ⟨rfl, rfl⟩ := h
      exact ⟨fun hh => absurd hh (by decide), fun _ => hacc⟩
    · rw [hhd] at h
      rcases fo with _ | ⟨frame, rest⟩
      · simp only [Option.some.injEq, Prod.mk.injEq] at h
        obtain ⟨rfl, rfl⟩ := h
        refine ⟨fun _ => ⟨acc, 0, rfl, hacc⟩, fun hne => absurd rfl hne⟩
      · simp only [] at h
        rcases hpl : read_payload frame rest with _ | ⟨frame1, rest1⟩
        · rw [hpl] at h
          simp only [Option.some.injEq, Prod.mk.injEq] at h
          obtain ⟨rfl, rfl⟩ := h
          exact ⟨fun hh => absurd hh (by decide), fun _ => hacc⟩
        · rw [hpl] at h
          simp only [] at h
          rcases hval : frame1.validate d frag.isSome with ve | vu
          · rw [hval] at h
            simp only [Option.some.injEq, Prod.mk.injEq] at h
            obtain ⟨rfl, rfl⟩ := h
            exact ⟨fun _ => ⟨acc, STATUS_PROTOCOL_ERROR, rfl, hacc⟩,
              fun hne => absurd rfl hne⟩
          · rw [hval] at h
            simp only [] at h
            rcases hfg :
                (if frame1.is_fragment then frame1.into_fragment frag
                 else some (some frame1, frag)) with _ | ⟨fcomp, frag2⟩
            · rw [hfg] at h
              simp only [Option.some.injEq, Prod.mk.injEq] at h
              obtain ⟨rfl, rfl⟩ := h
              exact ⟨fun hh => absurd hh (by decide), fun _ => hacc⟩
            · rw [hfg] at h
              rcases fcomp with _ | frame2
              · -- current frame is a non-final fragment; loop continues
                simp only [] at h
                have hfrag2 : ∀ b, frag2 = some b → Opcode.data b.opcode = true := by
                  by_cases hif : frame1.is_fragment = true
                  · rw [if_pos hif] at hfg
                    unfold Frame.into_fragment at hfg
                    rcases hfr : frame1.fragment
                    · rw [hfr] at hfg
                      simp only [Option.some.injEq, Prod.mk.injEq] at hfg
                      intro b hb
                      rw [← hfg.2, Option.some.injEq] at hb
                      rw [← hb]
                      exact fragment_start_data frame1 hfr
                    · rw [hfr] at hfg
                      rcases hbuf : frag with _ | buf
                      · rw [hbuf] at hfg
                        exact absurd hfg (by simp)
                      · rw [hbuf] at hfg
                        simp only [Option.some.injEq, Prod.mk.injEq] at hfg
                        intro b hb
                        rw [← hfg.2, Option.some.injEq] at hb
                        rw [← hb, append_opcode]
                        exact hfrag buf hbuf
                    · rw [hfr] at hfg
                      rcases hbuf : frag with _ | buf
                      · rw [hbuf] at hfg
                        exact absurd hfg (by simp)
                      · rw [hbuf] at hfg
                        simp only [Option.some.injEq, Prod.mk.injEq] at hfg
                        exact absurd hfg.1 (by simp)
                    · rw [hfr] at hfg
                      simp only [Option.some.injEq, Prod.mk.injEq] at hfg
                      exact absurd hfg.1 (by simp)
                  · rw [if_neg hif] at hfg
                    simp only [Option.some.injEq, Prod.mk.injEq] at hfg
                    exact absurd hfg.1 (by simp)
                exact ih rest1 frag2 acc msgs r h hacc hfrag2
              · -- a completed frame is processed
                simp only [] at h
                -- facts about the completed frame and the new buffer
                have hmain : (Opcode.valid frame2.opcode = true ∧
                    Opcode.cont frame2.opcode = false) ∧
                    (∀ b, frag2 = some b → Opcode.data b.opcode = true) := by
                  by_cases hif : frame1.is_fragment = true
                  · rw [if_pos hif] at hfg
                    unfold Frame.into_fragment at hfg
                    rcases hfr : frame1.fragment
                    · rw [hfr] at hfg
                      simp only [Option.some.injEq, Prod.mk.injEq] at hfg
                      exact absurd hfg.1 (by simp)
                    · rw [hfr] at hfg
                      rcases hbuf : frag with _ | buf
                      · rw [hbuf] at hfg
                        exact absurd hfg (by simp)
                      · rw [hbuf] at hfg
                        simp only [Option.some.injEq, Prod.mk.injEq] at hfg
                        exact absurd hfg.1 (by simp)
                    · rw [hfr] at hfg
                      rcases hbuf : frag with _ | buf
                      · rw [hbuf] at hfg
                        exact absurd hfg (by simp)
                      · rw [hbuf] at hfg
                        simp only [Option.some.injEq, Prod.mk.injEq] at hfg
                        have hdata : Opcode.data (buf.append frame1).opcode = true := by
                          rw [append_opcode]
                          exact hfrag buf hbuf
                        obtain ⟨h2, hnone⟩ := hfg
                        constructor
                        · rw [← h2]
                          exact ⟨(data_facts _ hdata).1, (data_facts _ hdata).2.1⟩
                        · intro b hb
                          rw [← hnone] at hb
                          exact absurd hb (by simp)
                    · rw [hfr] at hfg
                      simp only [Option.some.injEq, Prod.mk.injEq] at hfg
                      obtain ⟨h2, hsame⟩ := hfg
                      have hcont1 : Opcode.cont frame1.opcode = false :=
                        fragment_none_not_cont frame1 hfr
                      have hv1 : Opcode.valid frame1.opcode = true :=
                        ((validate_ok_iff frame1 d frag.isSome).mp (by rw [hval])).1
                      constructor
                      · rw [← h2]
                        exact ⟨hv1, hcont1⟩
                      · intro b hb
                        rw [← hsame] at hb
                        exact hfrag b hb
                  · rw [if_neg hif] at hfg
                    simp only [Option.some.injEq, Prod.mk.injEq] at hfg
                    obtain ⟨h2, hsame⟩ := hfg
                    have hv1 : Opcode.valid frame1.opcode = true :=
                      ((validate_ok_iff frame1 d frag.isSome).mp (by rw [hval])).1
                    have hcont1 : Opcode.cont frame1.opcode = false :=
                      is_fragment_false_not_cont frame1 (by simpa using hif)
                    constructor
                    · rw [← h2]
                      exact ⟨hv1, hcont1⟩
                    · intro b hb
                      rw [← hsame] at hb
                      exact hfrag b hb
                obtain ⟨⟨hv2, hc2⟩, hfrag2⟩ := hmain
                rcases hvp : frame2.validate_payload with pe | frame3
                · rw [hvp] at h
                  simp only [Option.some.injEq, Prod.mk.injEq] at h
                  obtain ⟨rfl, rfl⟩ := h
                  exact ⟨fun _ => ⟨acc, _, rfl, hacc⟩, fun hne => absurd rfl hne⟩
                · rw [hvp] at h
                  simp only [] at h
                  have hop3 : frame3.opcode = frame2.opcode :=
                    validate_payload_opcode frame2 frame3 hvp
                  by_cases hcl : (frame3.opcode == CLOSE) = true
                  · rw [if_pos hcl] at h
                    rcases hst : frame3.status with _ | s
                    · rw [hst] at h
                      simp only [Option.some.injEq, Prod.mk.injEq] at h
                      obtain ⟨rfl, rfl⟩ := h
                      exact ⟨fun hh => absurd hh (by decide), fun _ => hacc⟩
                    · rw [hst] at h
                      simp only [Option.some.injEq, Prod.mk.injEq] at h
                      obtain ⟨rfl, rfl⟩ := h
                      exact ⟨fun _ => ⟨acc, s, rfl, hacc⟩, fun hne => absurd rfl hne⟩
                  · rw [if_neg hcl] at h
                    obtain ⟨m, hm, hmc⟩ := into_ws_msg_not_close frame3
                      (by rw [hop3]; exact hv2) (by rw [hop3]; exact hc2)
                      (by simpa using hcl)
                    rw [hm] at h
                    simp only [] at h
                    have hacc2 : ∀ x ∈ acc ++ [m], x.is_close = false := by
                      intro x hx
                      rcases List.mem_append.mp hx with hx | hx
                      · exact hacc x hx
                      · rw [List.mem_singleton.mp hx]
                        exact hmc
                    exact ih rest1 frag2 (acc ++ [m]) msgs r h hacc2 hfrag2


/-- C2: the claim says EVERY terminal condition of the reader — including any
I/O error — ends with exactly one final Close to the application.
Counterexample: a text frame announcing 3 payload bytes of which only one
arrives before EOF makes the payload read fail; the error propagates out of
the loop past the final send, and the reader exits having emitted no Close
at all. -/
theorem c2_io_error_no_close_counterexample :
    readerRun false 1 [0x81, 0x03, 0x61] = some ([], LoopRes.ioErr) := by
  decide

/-- C2 (amended): when the reader task ends by clean EOF, validation failure
or peer Close (result ok), the messages it sent end in exactly one Close,
which is the last message and the only Close; when it ends on a propagated
I/O error (or a panic), it emits no Close at all. -/
theorem c2_close_emission (d : Bool) (fuel : Nat) (input : List Nat)
    (msgs : List Msg) (r : LoopRes)
    (h : readerRun d fuel input = some (msgs, r)) :
    (r = LoopRes.ok →
      ∃ pre s, msgs = pre ++ [Msg.close s] ∧ ∀ m ∈ pre, m.is_close = false) ∧
    (r ≠ LoopRes.ok → ∀ m ∈ msgs, m.is_close = false) :=
  readLoop_close_structure d fuel input none [] msgs r h (by simp) (by simp)

/-- Witness for `c2_close_emission` on the empty input (clean EOF). -/
theorem c2_close_emission_witness :
    ∃ pre s, ([Msg.close 0] : List Msg) = pre ++ [Msg.close s] ∧
      ∀ m ∈ pre, m.is_close = false :=
  (c2_close_emission false 1 [] [Msg.close 0] LoopRes.ok (by decide)).1 rfl

end Yarws
